import Mathlib

/-!
Shallow embedding of the kubejob library (src/job.go): a controller that runs a
one-shot Kubernetes batch job, watches its pod, streams container logs, executes
commands inside the running containers, and cleans up on exit.

Pure data and control flow are translated directly from the Go source.  Network
transport, the cluster API and goroutine scheduling are made explicit as oracle
parameters: the bytes a remote stream produces, the ordered list of watch events
the API server delivers, and the results of the create/list/delete calls.
-/

namespace Kubejob

/-- k8s core.ContainerStateTerminated (only the fields job.go reads). -/
structure ContainerStateTerminated where
  Reason : String := ""
  ExitCode : Int := 0
deriving DecidableEq, Repr

/-- k8s core.ContainerState (only the Terminated arm is inspected by job.go). -/
structure ContainerState where
  Terminated : Option ContainerStateTerminated := none
deriving DecidableEq, Repr

/-- k8s core.ContainerStatus. -/
structure ContainerStatus where
  Name : String := ""
  State : ContainerState := {}
deriving DecidableEq, Repr

/-- k8s core.Container (the fields job.go reads/writes). -/
structure Container where
  Name : String := ""
  Image : String := ""
  Command : List String := []
  Args : List String := []
deriving DecidableEq, Repr

/-- k8s core.PodStatus; a phase is a string ("Pending", "Running", ...; the Go
zero value is the empty string). -/
structure PodStatus where
  Phase : String := ""
  InitContainerStatuses : List ContainerStatus := []
  ContainerStatuses : List ContainerStatus := []
deriving DecidableEq, Repr

/-- k8s core.PodSpec (the fields job.go reads/writes). -/
structure PodSpec where
  InitContainers : List Container := []
  Containers : List Container := []
  RestartPolicy : String := ""
deriving DecidableEq, Repr

/-- k8s core.Pod. -/
structure Pod where
  Name : String := ""
  Spec : PodSpec := {}
  Status : PodStatus := {}
deriving DecidableEq, Repr

/-- FailedJob (job.go:39-41): the error value carrying the pod snapshot. -/
structure FailedJob where
  Pod : Pod
deriving DecidableEq, Repr

/-- FailedJob.errorContainerNamesFromStatuses (job.go:43-55): collect, in status
order, the names of statuses whose Terminated state is present with reason
"Error".  (The Go receiver is unused, so this is a plain function.) -/
def errorContainerNamesFromStatuses : List ContainerStatus → List String
  | [] => []
  | status :: rest =>
    match status.State.Terminated with
    | none => errorContainerNamesFromStatuses rest
    | some terminated =>
      if terminated.Reason = "Error" then
        status.Name :: errorContainerNamesFromStatuses rest
      else
        errorContainerNamesFromStatuses rest

/-- FailedJob.FailedContainerNames (job.go:57-66): init-container statuses first,
then regular container statuses. -/
def FailedJob.FailedContainerNames (j : FailedJob) : List String :=
  errorContainerNamesFromStatuses j.Pod.Status.InitContainerStatuses ++
    errorContainerNamesFromStatuses j.Pod.Status.ContainerStatuses

/-- The map built in FailedJob.FailedContainers (job.go:69-75): a Go map from
container name to container, inserting init containers first and then regular
containers (a later insert overwrites); a missing key yields the zero value. -/
def nameToContainerMap (containers : List Container) : String → Container :=
  containers.foldl
    (fun m container => fun name => if name = container.Name then container else m name)
    (fun _ => {})

/-- FailedJob.FailedContainers (job.go:68-81). -/
def FailedJob.FailedContainers (j : FailedJob) : List Container :=
  let m := nameToContainerMap (j.Pod.Spec.InitContainers ++ j.Pod.Spec.Containers)
  j.FailedContainerNames.map (fun name => m name)

/-- FailedJob.Error (job.go:83-85). -/
def FailedJob.Error (_ : FailedJob) : String := "failed to job"

/-- Spec-side reading of the failure criterion: a container status counts as
failed exactly when it is terminated with reason "Error". -/
def isErrorTerminated (status : ContainerStatus) : Bool :=
  match status.State.Terminated with
  | some terminated => terminated.Reason = "Error"
  | none => false

/-- A concrete failed pod: one init container terminated with reason "Error",
one regular container terminated with reason "Error", one exited 0 with reason
"Completed", one still running. -/
def failedPodW : Pod :=
  { Name := "pod-w"
    Spec :=
      { InitContainers :=
          [ { Name := "init-ok", Image := "img" }, { Name := "init-bad", Image := "img" } ]
        Containers :=
          [ { Name := "main", Image := "img" }, { Name := "side", Image := "img" } ] }
    Status :=
      { Phase := "Failed"
        InitContainerStatuses :=
          [ { Name := "init-ok",
              State := { Terminated := some { Reason := "Completed", ExitCode := 0 } } },
            { Name := "init-bad",
              State := { Terminated := some { Reason := "Error", ExitCode := 1 } } } ]
        ContainerStatuses :=
          [ { Name := "main",
              State := { Terminated := some { Reason := "Error", ExitCode := 2 } } },
            { Name := "side", State := { Terminated := none } } ] } }

/-- k8s metav1.ObjectMeta (the field job.go reads/writes). -/
structure ObjectMeta where
  Name : String := ""
deriving DecidableEq, Repr

/-- k8s core.PodTemplateSpec: labels (a possibly-nil Go map, modelled as an
optional association list) plus the pod spec. -/
structure PodTemplateSpec where
  Labels : Option (List (String × String)) := none
  Spec : PodSpec := {}
deriving DecidableEq, Repr

/-- k8s batch.JobSpec (the field job.go reads/writes). -/
structure JobSpec where
  Template : PodTemplateSpec := {}
deriving DecidableEq, Repr

/-- k8s batch.Job. -/
structure BatchJob where
  ObjectMeta : ObjectMeta := {}
  Spec : JobSpec := {}
deriving DecidableEq, Repr

/-- Go map assignment labels[k] = v on an association-list model: replace the
binding if the key is present, otherwise append it. -/
def insertLabel (labels : List (String × String)) (key value : String) :
    List (String × String) :=
  if labels.any (fun kv => kv.1 = key) then
    labels.map (fun kv => if kv.1 = key then (key, value) else kv)
  else
    labels ++ [(key, value)]

/-- JobBuilder (job.go:87-92); the rest-config field is transport state and is
not embedded. -/
structure JobBuilder where
  nspace : String := ""
  image : String := ""
  command : List String := []
deriving DecidableEq, Repr

/-- JobBuilder.generateName (job.go:113-115); the xid.New() value is an
explicit argument. -/
def generateName (name id : String) : String := name ++ "-" ++ id

/-- The container-naming loop of BuildWithJob (job.go:174-178): each container
with an empty name receives kubejob-container-<xid>, consuming one fresh id per
renamed container.  `ids` is the stream of xid.New() results and `k` the index
of the next unconsumed id; the final index is returned. -/
def assignContainerNames (ids : Nat → String) :
    Nat → List Container → List Container × Nat
  | k, [] => ([], k)
  | k, c :: rest =>
    if c.Name = "" then
      let r := assignContainerNames ids (k + 1) rest
      ({ c with Name := generateName "kubejob-container" (ids k) } :: r.1, r.2)
    else
      let r := assignContainerNames ids k rest
      (c :: r.1, r.2)

/-- JobBuilder.BuildWithJob (job.go:160-191), the part that transforms the job
spec (clientset construction is transport state and is not embedded): default
the job name, default an empty restart policy to "Never", auto-name containers
with empty names, and add a freshly generated label to the pod template.
`ids` is the stream of xid.New() results, consumed in call order. -/
def BuildWithJob (ids : Nat → String) (jobSpec : BatchJob) : BatchJob :=
  let jobName : String :=
    if jobSpec.ObjectMeta.Name = "" then generateName "kubejob" (ids 0)
    else jobSpec.ObjectMeta.Name
  let idsUsedByName : Nat := if jobSpec.ObjectMeta.Name = "" then 1 else 0
  let restartPolicy :=
    if jobSpec.Spec.Template.Spec.RestartPolicy = "" then "Never"
    else jobSpec.Spec.Template.Spec.RestartPolicy
  let containersAndNext :=
    assignContainerNames ids idsUsedByName jobSpec.Spec.Template.Spec.Containers
  let labelName := generateName "kubejob-label" (ids containersAndNext.2)
  let labels0 :=
    match jobSpec.Spec.Template.Labels with
    | none => []
    | some ls => ls
  { ObjectMeta := { Name := jobName }
    Spec :=
      { Template :=
          { Labels := some (insertLabel labels0 labelName labelName)
            Spec :=
              { InitContainers := jobSpec.Spec.Template.Spec.InitContainers
                Containers := containersAndNext.1
                RestartPolicy := restartPolicy } } } }

/-- JobBuilder.Build (job.go:127-150): requires a non-empty image, then calls
BuildWithJob on a one-container spec with restart policy "Never".  It consumes
two fresh ids (job name, container name) before BuildWithJob runs. -/
def JobBuilder.Build (b : JobBuilder) (ids : Nat → String) : Except String BatchJob :=
  if b.image = "" then Except.error "could not find container.image name"
  else Except.ok (BuildWithJob (fun n => ids (n + 2))
    { ObjectMeta := { Name := generateName "kubejob" (ids 0) }
      Spec :=
        { Template :=
            { Spec :=
                { Containers :=
                    [ { Name := generateName "kubejob-container" (ids 1)
                        Image := b.image
                        Command := b.command } ]
                  RestartPolicy := "Never" } } } })

/-- The index of the xid consumed for the label name in BuildWithJob: one id
when the job name was generated, plus one per renamed container. -/
def labelIdIndex (ids : Nat → String) (jobSpec : BatchJob) : Nat :=
  (assignContainerNames ids
    (if jobSpec.ObjectMeta.Name = "" then 1 else 0)
    jobSpec.Spec.Template.Spec.Containers).2

/-- A deterministic stand-in for the stream of xid.New() values. -/
def exIds : Nat → String := fun n => "xid" ++ toString n

/-- A caller-supplied job spec with a non-empty restart policy and an unnamed
init container. -/
def badPolicyJob : BatchJob :=
  { ObjectMeta := { Name := "myjob" }
    Spec :=
      { Template :=
          { Labels := none
            Spec :=
              { InitContainers := [ { Name := "", Image := "img" } ]
                Containers := [ { Name := "c1", Image := "img" } ]
                RestartPolicy := "OnFailure" } } } }

/-- A caller-supplied job spec that leaves the restart policy empty. -/
def emptyPolicyJob : BatchJob :=
  { ObjectMeta := { Name := "" }
    Spec :=
      { Template :=
          { Labels := none
            Spec :=
              { Containers := [ { Name := "", Image := "img" } ]
                RestartPolicy := "" } } } }

/-- The two process-level sinks and the capture buffer that exec's
remotecommand.StreamOptions can point at (job.go:296-301). -/
inductive Sink where
  | osStdout
  | osStderr
  | captureBuf
deriving DecidableEq, Repr

/-- remotecommand.StreamOptions (the sink fields; Stdin is always nil and Tty
always false in job.go). -/
structure StreamOptions where
  Stdout : Sink
  Stderr : Sink
deriving DecidableEq, Repr

/-- The writable byte stores visible to one exec call: the process-level
os.Stdout / os.Stderr and the call's capture buffer (job.go:251-272). -/
structure ExecState where
  osStdout : String := ""
  osStderr : String := ""
  buf : String := ""
deriving DecidableEq, Repr

def writeSink (st : ExecState) (s : Sink) (data : String) : ExecState :=
  match s with
  | Sink.osStdout => { st with osStdout := st.osStdout ++ data }
  | Sink.osStderr => { st with osStderr := st.osStderr ++ data }
  | Sink.captureBuf => { st with buf := st.buf ++ data }

/-- What the remote side does during one streamed exec call: the bytes it
writes to the stdout and stderr streams, and the stream error (non-nil when
the remote command exits non-zero or the transport fails). -/
structure RemoteBehavior where
  stdout : String := ""
  stderr : String := ""
  streamErr : Option String := none
deriving DecidableEq, Repr

/-- JobExecutor.stream (job.go:330-369), with protocol negotiation abstracted:
the negotiated streamer copies the remote output to the configured sinks and
returns the stream error. -/
def streamExec (opts : StreamOptions) (remote : RemoteBehavior) (st : ExecState) :
    ExecState × Option String :=
  (writeSink (writeSink st opts.Stdout remote.stdout) opts.Stderr remote.stderr,
   remote.streamErr)

/-- JobExecutor (job.go:237-249): the container, the original command and args,
and the log-disabling flags; transport state is not embedded. -/
structure JobExecutor where
  Container : Container := {}
  pod : Pod := {}
  command : List String := []
  args : List String := []
  disabledContainerLog : Bool := false
  disabledCommandLog : Bool := false
deriving DecidableEq, Repr

/-- The result of one JobExecutor.exec call: the target container and wire
command actually sent to the exec subresource, the returned bytes, and the
returned error. -/
structure ExecLow where
  container : String
  wireCmd : List String
  out : String
  err : Option String
deriving DecidableEq, Repr

/-- JobExecutor.exec (job.go:274-308): wraps cmd as sh -c <joined>, allocates a
fresh capture buffer, streams with Stdout/Stderr pointing at the process-level
os.Stdout/os.Stderr (the buffer is passed to neither — the source has them
commented out), and returns the buffer's bytes plus the wrapped stream error.
The misspelled wrap text "faield to exec command" is the source's own. -/
def JobExecutor.exec (e : JobExecutor) (cmd : List String)
    (remote : RemoteBehavior) (st : ExecState) : ExecState × ExecLow :=
  let wireCmd := ["sh", "-c", String.intercalate " " cmd]
  let st := { st with buf := "" }
  let r := streamExec { Stdout := Sink.osStdout, Stderr := Sink.osStderr } remote st
  match r.2 with
  | some msg =>
    (r.1, { container := e.Container.Name, wireCmd, out := r.1.buf,
            err := some ("faield to exec command: " ++ msg) })
  | none =>
    (r.1, { container := e.Container.Name, wireCmd, out := r.1.buf, err := none })

/-- The observable outcome of one JobExecutor.Exec call. -/
structure ExecOutcome where
  loggedCommand : Bool
  calls : List (List String)
  out : String
  err : Option FailedJob
  handshakeFailureLogged : Bool
deriving DecidableEq, Repr

/-- JobExecutor.Exec (job.go:371-392): optionally log the command line, run the
original command+args through exec, derive status 0/1 and a FailedJob from the
exec error, then always run the handshake write (echo <status> >
/tmp/kubejob-status) through a second exec call whose failure is only logged.
`primary` and `handshake` are the remote behaviors of the two calls; `calls`
records the argument of each exec call in order. -/
def JobExecutor.Exec (e : JobExecutor) (primary handshake : RemoteBehavior)
    (st : ExecState) : ExecState × ExecOutcome :=
  let loggedCommand := !e.disabledCommandLog
  let r1 := e.exec (e.command ++ e.args) primary st
  let status : Nat := if r1.2.err.isSome then 1 else 0
  let errTest : Option FailedJob :=
    if r1.2.err.isSome then some { Pod := e.pod } else none
  let handshakeCmd := ["echo", toString status, ">", "/tmp/kubejob-status"]
  let r2 := JobExecutor.exec e handshakeCmd handshake r1.1
  (r2.1,
   { loggedCommand
     calls := [e.command ++ e.args, handshakeCmd]
     out := r1.2.out
     err := errTest
     handshakeFailureLogged := r2.2.err.isSome })

/-- The pod snapshot captured by the executor when the pod became live, for the
cat-missingfile scenario. -/
def catPod : Pod :=
  { Name := "missing-pod"
    Spec := { Containers := [ { Name := "test", Image := "golang:1.17-stretch",
                                Command := ["cat", "missingfile"] } ] }
    Status := { Phase := "Running" } }

def catExecutor : JobExecutor :=
  { Container := { Name := "test", Image := "golang:1.17-stretch",
                   Command := ["cat", "missingfile"] }
    pod := catPod
    command := ["cat", "missingfile"]
    args := [] }

/-- What the remote side does for `cat missingfile`: write the diagnostic to
stderr and end the stream with a non-zero-exit error. -/
def catRemote : RemoteBehavior :=
  { stdout := ""
    stderr := "cat: missingfile: No such file or directory\n"
    streamErr := some "command terminated with exit code 1" }

/-- The sentinel-polling wrapper script (jobCommandTemplate, job.go:396-403). -/
def jobCommandTemplate : String :=
  "\nwhile [ ! -f /tmp/kubejob-status ]\ndo\n    sleep 1;\ndone\n\nexit $(cat /tmp/kubejob-status)\n"

/-- The executor-construction loop of Job.RunWithExecutionHandler
(job.go:411-434): for each container, build a JobExecutor holding the
container's original command and args, then overwrite the container's command
in the job spec with sh -c <jobCommandTemplate>.  Returns the executors and
the container list as it is submitted to the cluster. -/
def setupExecutors (disabledCommandLog disabledContainerLog : Bool) :
    List Container → List JobExecutor × List Container
  | [] => ([], [])
  | container :: rest =>
    let r := setupExecutors disabledCommandLog disabledContainerLog rest
    ({ Container := container
       command := container.Command
       args := container.Args
       disabledCommandLog := disabledCommandLog
       disabledContainerLog := disabledContainerLog } :: r.1,
     { container with Command := ["sh"], Args := ["-c", jobCommandTemplate] } :: r.2)

/-- The caller-supplied podRunningCallback (job.go:205, set at job.go:436-444):
its returned error, and whether it cancels the run's context (as the
RunWithExecutionHandler handler may do) before returning. -/
structure CallbackSpec where
  err : Option String := none
  cancels : Bool := false
deriving DecidableEq, Repr

/-- The state threaded through the watch goroutine of Job.watchLoop
(job.go:534-578): the last seen phase (`var phase core.PodPhase`, zero value
""), the sync.Once, whether the context has been canceled, and instrumentation
counting callback invocations and log-stream starts. -/
structure WatchSt where
  phase : String := ""
  onceFired : Bool := false
  canceled : Bool := false
  callbackCount : Nat := 0
  logStreamStarts : Nat := 0
deriving DecidableEq, Repr

/-- How the watch goroutine of Job.watchLoop returns: the result channel
closed, a context error, a callback error, a FailedJob on the Failed phase, or
nil on the Succeeded phase. -/
inductive WatcherOutcome where
  | drained
  | ctxError (msg : String)
  | callbackError (msg : String)
  | failedJob (j : FailedJob)
  | succeeded
deriving DecidableEq, Repr

/-- The error the once.Do body observes from the callback: nil when no
callback is set (job.go:548-550). -/
def callbackErrOf : Option CallbackSpec → Option String
  | some c => c.err
  | none => none

/-- Whether the callback cancels the run's context when invoked. -/
def callbackCancels : Option CallbackSpec → Bool
  | some c => c.cancels
  | none => false

/-- The state after the once.Do body on a first "Running" event
(job.go:547-557): the callback runs (counted; it may cancel the run's context)
and the log-stream goroutine is started. -/
def firedState (cb : Option CallbackSpec) (st : WatchSt) : WatchSt :=
  { st with
    onceFired := true
    phase := "Running"
    callbackCount := st.callbackCount + (if cb.isSome then 1 else 0)
    canceled := st.canceled || callbackCancels cb
    logStreamStarts := st.logStreamStarts + 1 }

/-- The once.Do body on a terminal event (job.go:562-569): start log streaming
if not yet started. -/
def terminalState (st : WatchSt) : WatchSt :=
  if st.onceFired then st
  else { st with onceFired := true, logStreamStarts := st.logStreamStarts + 1 }

/-- The watch goroutine of Job.watchLoop (job.go:534-578), processing the watch
events in delivery order: check ctx.Err(), skip events repeating the last
phase, fire the once-guarded callback plus log streaming on "Running" (the
callback may cancel the context, observed at the next event), start log
streaming and return on "Succeeded"/"Failed", and record the phase. -/
def watchGoroutine (cb : Option CallbackSpec) :
    List Pod → WatchSt → WatchSt × WatcherOutcome
  | [], st => (st, WatcherOutcome.drained)
  | pod :: rest, st =>
    if st.canceled then
      (st, WatcherOutcome.ctxError "context error: context canceled")
    else if pod.Status.Phase = st.phase then
      watchGoroutine cb rest st
    else if pod.Status.Phase = "Running" then
      if st.onceFired then
        watchGoroutine cb rest { st with phase := "Running" }
      else
        match callbackErrOf cb with
        | some msg =>
          (firedState cb st, WatcherOutcome.callbackError
            ("failed to callback for pod running: " ++ msg))
        | none => watchGoroutine cb rest (firedState cb st)
    else if pod.Status.Phase = "Succeeded" ∨ pod.Status.Phase = "Failed" then
      if pod.Status.Phase = "Failed" then
        (terminalState st, WatcherOutcome.failedJob { Pod := pod })
      else
        (terminalState st, WatcherOutcome.succeeded)
    else
      watchGoroutine cb rest { st with phase := pod.Status.Phase }

/-- Job.watchLoop (job.go:528-583): run the watch goroutine and wrap its error
through eg.Wait.  (The log-stream tailer goroutines join the same errgroup;
only the watch goroutine's own error is modelled, which is the one every claim
below depends on.) -/
def watchLoop (cb : Option CallbackSpec) (events : List Pod) :
    WatchSt × Option String :=
  let r := watchGoroutine cb events {}
  (r.1,
   match r.2 with
   | WatcherOutcome.drained => none
   | WatcherOutcome.succeeded => none
   | WatcherOutcome.ctxError msg => some ("failed to wait in watchLoop: " ++ msg)
   | WatcherOutcome.callbackError msg => some ("failed to wait in watchLoop: " ++ msg)
   | WatcherOutcome.failedJob j =>
     some ("failed to wait in watchLoop: " ++ j.Error))

/-- Job.wait (job.go:498-512): start the watch (whose failure is an oracle
input) and wrap watchLoop's error. -/
def Job.wait (watchStartErr : Option String) (cb : Option CallbackSpec)
    (events : List Pod) : Option String :=
  match watchStartErr with
  | some msg => some ("failed to start watch pod: " ++ msg)
  | none =>
    match (watchLoop cb events).2 with
    | some msg => some ("failed to watching: " ++ msg)
    | none => none

/-- The results of the cluster API calls Job.Run makes: create, delete-job, the
watch start, the pod list (whose error the source discards), and per-pod-name
delete results. -/
structure ClusterOps where
  createErr : Option String := none
  deleteJobErr : Option String := none
  watchStartErr : Option String := none
  podList : Option (List Pod) := some []
  deletePodErr : String → Option String := fun _ => none

/-- The pod-deletion loop of Job.Run's deferred cleanup (job.go:468-477):
each failed delete is wrapped and joined below the current error with a
newline; a failure with no current error becomes the error. -/
def deletePodsLoop (deletePodErr : String → Option String) :
    List Pod → Option String → Option String
  | [], e => e
  | pod :: rest, e =>
    match deletePodErr pod.Name with
    | some msg =>
      let podErr := "failed to delete pod: " ++ msg
      deletePodsLoop deletePodErr rest
        (match e with
         | none => some podErr
         | some cur => some (cur ++ "\n" ++ podErr))
    | none => deletePodsLoop deletePodErr rest e

/-- The deferred cleanup of Job.Run (job.go:455-478): delete the job — a
failure OVERWRITES the current error `e` — then list the pods by label
selector (the list error is discarded) and delete each one, aggregating those
failures. -/
def runCleanup (ops : ClusterOps) (e0 : Option String) : Option String :=
  let e :=
    match ops.deleteJobErr with
    | some msg => some ("failed to delete job: " ++ msg)
    | none => e0
  match ops.podList with
  | none => e
  | some pods =>
    if pods.length = 0 then e
    else deletePodsLoop ops.deletePodErr pods e

/-- The observable outcome of Job.Run: the returned error, and whether the
deferred cleanup issued the job delete and which pod deletes. -/
structure RunResult where
  err : Option String
  jobDeleteAttempted : Bool
  podDeletesAttempted : List String

/-- Job.Run (job.go:451-496): create the job (no cleanup if that fails), run
the body (wait on the watch), and return the body error filtered through the
deferred cleanup.  The log-consumer goroutine (job.go:481-489) only forwards
events and contributes no error. -/
def Job.Run (ops : ClusterOps) (cb : Option CallbackSpec) (events : List Pod) :
    RunResult :=
  match ops.createErr with
  | some msg =>
    { err := some ("failed to create job: " ++ msg)
      jobDeleteAttempted := false
      podDeletesAttempted := [] }
  | none =>
    let bodyErr :=
      match Job.wait ops.watchStartErr cb events with
      | some msg => some ("failed to wait: " ++ msg)
      | none => none
    { err := runCleanup ops bodyErr
      jobDeleteAttempted := true
      podDeletesAttempted := (ops.podList.getD []).map Pod.Name }

/-- The watch stream delivers some "Running" event, and no terminal
("Succeeded"/"Failed") event before it. -/
def hasRunningBeforeTerminal (events : List Pod) : Prop :=
  ∃ pre p post, events = pre ++ p :: post ∧ p.Status.Phase = "Running"
    ∧ ∀ q ∈ pre, q.Status.Phase ≠ "Succeeded" ∧ q.Status.Phase ≠ "Failed"

def runningPodW : Pod := { Name := "pw", Status := { Phase := "Running" } }

def pendingPodW : Pod := { Name := "pw", Status := { Phase := "Pending" } }

def succeededPodW : Pod := { Name := "pw", Status := { Phase := "Succeeded" } }

/-- An execution handler that cancels the run's context immediately after being
invoked, then returns nil (as in Test_RunnerWithCancel). -/
def cancelingCallback : CallbackSpec := { err := none, cancels := true }

def runningPodC : Pod := { Name := "pod-c", Status := { Phase := "Running" } }

def succeededPodC : Pod := { Name := "pod-c", Status := { Phase := "Succeeded" } }

def cancelOps : ClusterOps := { podList := some [runningPodC] }

def failedPodF : Pod := { Name := "pod-f", Status := { Phase := "Failed" } }

def overwriteOps : ClusterOps := { deleteJobErr := some "boom", podList := some [] }

/-- ContainerLog (job.go:210-215). -/
structure ContainerLog where
  Pod : Pod
  Container : Container
  Log : String
  IsFinished : Bool := false
deriving DecidableEq, Repr

/-- One ReadString result inside the reader goroutine of logStreamContainer: a
full line (err == nil), io.EOF, or another read error. -/
inductive ReadResult where
  | line (s : String)
  | eof
  | readFailure (msg : String)
deriving DecidableEq, Repr

/-- The ContainerLog events one iteration of the reader goroutine
(job.go:673-699) sends on the containerLogs channel: a log line when the read
succeeded and container logging is enabled, and a Log="" IsFinished=true event
when the read returned io.EOF.  (A non-EOF read error goes to errchan only.) -/
def readIterationEvents (enabledLog : Bool) (pod : Pod) (container : Container) :
    ReadResult → List ContainerLog
  | ReadResult.line s =>
    if enabledLog then
      [{ Pod := pod, Container := container, Log := s, IsFinished := false }]
    else []
  | ReadResult.eof =>
    [{ Pod := pod, Container := container, Log := "", IsFinished := true }]
  | ReadResult.readFailure _ => []

/-- The events sent during the first n iterations of the reader goroutine's
for-loop.  The loop has no exit at all (job.go:675-698: no return or break
after the io.EOF branch), so n is a fuel bound, not a termination point.  The
first two iterations always run to completion: the containerLogs consumer
(job.go:481-489) drains every event, and errchan (capacity 1) accepts the
first send into its buffer, so no send before the second errchan send can
block. -/
def readLoopEvents (enabledLog : Bool) (pod : Pod) (container : Container)
    (reads : Nat → ReadResult) : Nat → List ContainerLog
  | 0 => []
  | n + 1 =>
    readLoopEvents enabledLog pod container reads n
      ++ readIterationEvents enabledLog pod container (reads n)

def finishedCount (events : List ContainerLog) : Nat :=
  (events.filter (fun e => e.IsFinished)).length

def streamPod : Pod := { Name := "pod-s", Status := { Phase := "Running" } }

def streamContainer : Container := { Name := "test", Image := "img" }

/-- A log stream at end of stream: every ReadString call returns io.EOF (EOF
is not sticky-terminal for the loop; bufio retries the underlying read, which
keeps reporting io.EOF until the deferred stream.Close runs). -/
def eofStreamReads : Nat → ReadResult := fun _ => ReadResult.eof

def execContainersW : List Container :=
  [ { Name := "c1", Image := "img", Command := ["echo", "hi"], Args := ["a"] },
    { Name := "c2", Image := "img", Command := ["cat", "f"] } ]

/-! ### Theorems -/

theorem errorContainerNames_eq_filter (l : List ContainerStatus) :
    errorContainerNamesFromStatuses l
      = (l.filter isErrorTerminated).map ContainerStatus.Name := by
  induction l with
  | nil => rfl
  | cons status rest ih =>
    unfold errorContainerNamesFromStatuses
    cases hterm : status.State.Terminated with
    | none =>
      simp [List.filter, isErrorTerminated, hterm, ih]
    | some terminated =>
      by_cases hr : terminated.Reason = "Error"
      · simp [List.filter, isErrorTerminated, hterm, hr, ih]
      · simp [List.filter, isErrorTerminated, hterm, hr, ih]

theorem nameToContainerMap_lookup_mem :
    ∀ (cs : List Container) (init : String → Container) (name : String),
      (∃ c ∈ cs, c.Name = name) →
      ((cs.foldl
          (fun m container => fun n => if n = container.Name then container else m n)
          init) name).Name = name := by
  intro cs
  induction cs using List.reverseRecOn with
  | nil =>
    intro init name h
    simp at h
  | append_singleton cs c ih =>
    intro init name h
    rw [List.foldl_append, List.foldl_cons, List.foldl_nil]
    by_cases hc : name = c.Name
    · simp [hc]
    · have hmem : ∃ x ∈ cs, x.Name = name := by
        rcases h with ⟨x, hx, hxname⟩
        rcases List.mem_append.mp hx with hx1 | hx2
        · exact ⟨x, hx1, hxname⟩
        · rcases List.mem_singleton.mp hx2 with rfl
          exact absurd hxname.symm hc
      simp only [if_neg hc]
      exact ih init name hmem

theorem mem_errorContainerNames (l : List ContainerStatus) (name : String) :
    name ∈ errorContainerNamesFromStatuses l ↔
      ∃ s ∈ l, isErrorTerminated s = true ∧ s.Name = name := by
  rw [errorContainerNames_eq_filter]
  simp only [List.mem_map, List.mem_filter]
  constructor
  · rintro ⟨s, ⟨hs, herr⟩, hname⟩
    exact ⟨s, hs, herr, hname⟩
  · rintro ⟨s, hs, herr, hname⟩
    exact ⟨s, ⟨hs, herr⟩, hname⟩

/-- C6: For every FailedJob, FailedContainers() returns exactly the containers
whose container status is terminated with reason "Error" — containers that
exited 0 (under the k8s convention that a zero exit is not reported with reason
"Error") or are not terminated are excluded — ordered init containers first,
then regular containers, each group in the pod's status order. -/
theorem FailedContainers_exactly_error_terminated (j : FailedJob)
    (hnames : ∀ s ∈ j.Pod.Status.InitContainerStatuses ++ j.Pod.Status.ContainerStatuses,
      ∃ c ∈ j.Pod.Spec.InitContainers ++ j.Pod.Spec.Containers, c.Name = s.Name)
    (hzero : ∀ s ∈ j.Pod.Status.InitContainerStatuses ++ j.Pod.Status.ContainerStatuses,
      ∀ t, s.State.Terminated = some t → t.ExitCode = 0 → t.Reason ≠ "Error") :
    j.FailedContainerNames
        = (j.Pod.Status.InitContainerStatuses.filter isErrorTerminated).map ContainerStatus.Name
          ++ (j.Pod.Status.ContainerStatuses.filter isErrorTerminated).map ContainerStatus.Name
      ∧ j.FailedContainers.map Container.Name = j.FailedContainerNames
      ∧ (∀ s ∈ j.Pod.Status.InitContainerStatuses ++ j.Pod.Status.ContainerStatuses,
          s.State.Terminated = none → isErrorTerminated s = false)
      ∧ (∀ s ∈ j.Pod.Status.InitContainerStatuses ++ j.Pod.Status.ContainerStatuses,
          ∀ t, s.State.Terminated = some t → t.ExitCode = 0 → isErrorTerminated s = false)
      ∧ (∀ c ∈ j.FailedContainers,
          ∃ s ∈ j.Pod.Status.InitContainerStatuses ++ j.Pod.Status.ContainerStatuses,
            isErrorTerminated s = true ∧ s.Name = c.Name) := by
  have hnames_in_spec : ∀ name ∈ j.FailedContainerNames,
      ∃ c ∈ j.Pod.Spec.InitContainers ++ j.Pod.Spec.Containers, c.Name = name := by
    intro name hmem
    unfold FailedJob.FailedContainerNames at hmem
    rcases List.mem_append.mp hmem with h | h
    · rcases (mem_errorContainerNames _ _).mp h with ⟨s, hs, _, hname⟩
      rcases hnames s (List.mem_append.mpr (Or.inl hs)) with ⟨c, hc, hcname⟩
      exact ⟨c, hc, hcname.trans hname⟩
    · rcases (mem_errorContainerNames _ _).mp h with ⟨s, hs, _, hname⟩
      rcases hnames s (List.mem_append.mpr (Or.inr hs)) with ⟨c, hc, hcname⟩
      exact ⟨c, hc, hcname.trans hname⟩
  have hlookup : ∀ name ∈ j.FailedContainerNames,
      (nameToContainerMap (j.Pod.Spec.InitContainers ++ j.Pod.Spec.Containers) name).Name
        = name := by
    intro name hmem
    exact nameToContainerMap_lookup_mem _ _ name (hnames_in_spec name hmem)
  refine ⟨?_, ?_, ?_, ?_, ?_⟩
  · unfold FailedJob.FailedContainerNames
    rw [errorContainerNames_eq_filter, errorContainerNames_eq_filter]
  · unfold FailedJob.FailedContainers
    simp only [List.map_map]
    calc j.FailedContainerNames.map
          (Container.Name ∘ fun name =>
            nameToContainerMap (j.Pod.Spec.InitContainers ++ j.Pod.Spec.Containers) name)
        = j.FailedContainerNames.map id := List.map_congr_left (fun name hmem => hlookup name hmem)
      _ = j.FailedContainerNames := List.map_id _
  · intro s _ hterm
    simp [isErrorTerminated, hterm]
  · intro s hs t hterm hexit
    have := hzero s hs t hterm hexit
    simp [isErrorTerminated, hterm, this]
  · intro c hc
    unfold FailedJob.FailedContainers at hc
    simp only [List.mem_map] at hc
    rcases hc with ⟨name, hname, rfl⟩
    unfold FailedJob.FailedContainerNames at hname
    rcases List.mem_append.mp hname with h | h
    · rcases (mem_errorContainerNames _ _).mp h with ⟨s, hs, herr, hsname⟩
      refine ⟨s, List.mem_append.mpr (Or.inl hs), herr, ?_⟩
      rw [hsname, hlookup name hname]
    · rcases (mem_errorContainerNames _ _).mp h with ⟨s, hs, herr, hsname⟩
      refine ⟨s, List.mem_append.mpr (Or.inr hs), herr, ?_⟩
      rw [hsname, hlookup name hname]

theorem FailedContainers_exactly_error_terminated_witness :
    (FailedJob.mk failedPodW).FailedContainerNames = ["init-bad", "main"]
      ∧ (FailedJob.mk failedPodW).FailedContainers.map Container.Name
          = ["init-bad", "main"] := by
  have h := FailedContainers_exactly_error_terminated (FailedJob.mk failedPodW)
    (by decide) (by decide)
  have h1 : (FailedJob.mk failedPodW).FailedContainerNames = ["init-bad", "main"] := by decide
  exact ⟨h1, h.2.1.trans h1⟩

/-- C10: FailedJob.Error returns the fixed string "failed to job" for every
FailedJob value, independent of the pod snapshot it carries. -/
theorem FailedJob_Error_constant (j k : FailedJob) :
    j.Error = "failed to job" ∧ j.Error = k.Error :=
  ⟨rfl, rfl⟩

theorem generateName_ne_empty (name id : String) (h : 0 < name.length) :
    generateName name id ≠ "" := by
  intro heq
  have hlen := congrArg String.length heq
  simp only [generateName, String.length_append] at hlen
  have hdash : ("-" : String).length = 1 := rfl
  have hnil : ("" : String).length = 0 := rfl
  omega

theorem generateName_inj_id (name x y : String)
    (h : generateName name x = generateName name y) : x = y := by
  have hdata := congrArg String.data h
  simp only [generateName, String.data_append] at hdata
  have := List.append_cancel_left hdata
  exact String.ext this

theorem assignContainerNames_ne_empty (ids : Nat → String) :
    ∀ (cs : List Container) (k : Nat) (c : Container),
      c ∈ (assignContainerNames ids k cs).1 → c.Name ≠ "" := by
  intro cs
  induction cs with
  | nil =>
    intro k c hc
    simp [assignContainerNames] at hc
  | cons hd rest ih =>
    intro k c hc
    by_cases hname : hd.Name = ""
    · simp only [assignContainerNames, if_pos hname, List.mem_cons] at hc
      rcases hc with rfl | hc
      · exact generateName_ne_empty "kubejob-container" (ids k) (by decide)
      · exact ih (k + 1) c hc
    · simp only [assignContainerNames, if_neg hname, List.mem_cons] at hc
      rcases hc with rfl | hc
      · exact hname
      · exact ih k c hc

theorem insertLabel_mem (labels : List (String × String)) (key value : String) :
    (key, value) ∈ insertLabel labels key value := by
  unfold insertLabel
  by_cases hany : labels.any (fun kv => kv.1 = key)
  · simp only [if_pos hany]
    rcases List.any_eq_true.mp hany with ⟨kv, hkv, hkey⟩
    refine List.mem_map.mpr ⟨kv, hkv, ?_⟩
    simp only [if_pos (of_decide_eq_true hkey)]
  · simp [if_neg hany]

/-- C9 (amended): for every job transformed by BuildWithJob, every container in
the Containers list ends up with a non-empty name; the restart policy becomes
"Never" exactly when the supplied spec left it empty (a caller-supplied policy
is kept); the pod template carries a freshly generated kubejob-label entry,
distinct from the label of any run whose xid differs; and every job produced by
Build carries restart policy "Never". -/
theorem BuildWithJob_invariants (ids : Nat → String) (jobSpec : BatchJob)
    (b : JobBuilder) :
    (∀ c ∈ (BuildWithJob ids jobSpec).Spec.Template.Spec.Containers, c.Name ≠ "")
    ∧ (jobSpec.Spec.Template.Spec.RestartPolicy = "" →
        (BuildWithJob ids jobSpec).Spec.Template.Spec.RestartPolicy = "Never")
    ∧ (jobSpec.Spec.Template.Spec.RestartPolicy ≠ "" →
        (BuildWithJob ids jobSpec).Spec.Template.Spec.RestartPolicy
          = jobSpec.Spec.Template.Spec.RestartPolicy)
    ∧ (∃ k, (generateName "kubejob-label" (ids k), generateName "kubejob-label" (ids k))
          ∈ ((BuildWithJob ids jobSpec).Spec.Template.Labels.getD [])
        ∧ ∀ s : String, s ≠ ids k →
            generateName "kubejob-label" s ≠ generateName "kubejob-label" (ids k))
    ∧ (∀ out, b.Build ids = Except.ok out →
        out.Spec.Template.Spec.RestartPolicy = "Never") := by
  refine ⟨?_, ?_, ?_, ?_, ?_⟩
  · intro c hc
    simp only [BuildWithJob] at hc
    exact assignContainerNames_ne_empty ids _ _ c hc
  · intro hpol
    simp [BuildWithJob, hpol]
  · intro hpol
    simp [BuildWithJob, if_neg hpol]
  · refine ⟨labelIdIndex ids jobSpec, ?_, ?_⟩
    · simp only [BuildWithJob, labelIdIndex, Option.getD_some]
      exact insertLabel_mem _ _ _
    · intro s hs heq
      exact hs (generateName_inj_id "kubejob-label" s _ heq)
  · intro out hout
    unfold JobBuilder.Build at hout
    by_cases himg : b.image = ""
    · simp [if_pos himg] at hout
    · simp only [if_neg himg, Except.ok.injEq] at hout
      subst hout
      simp [BuildWithJob]

/-- C9 counterexample: BuildWithJob keeps a caller-supplied restart policy
("OnFailure" stays, it is not forced to "Never"), and an init container with an
empty name is left unnamed. -/
theorem BuildWithJob_policy_counterexample :
    (BuildWithJob exIds badPolicyJob).Spec.Template.Spec.RestartPolicy = "OnFailure"
    ∧ ("OnFailure" : String) ≠ "Never"
    ∧ ∃ c ∈ (BuildWithJob exIds badPolicyJob).Spec.Template.Spec.InitContainers,
        c.Name = "" := by
  refine ⟨by decide, by decide, ?_⟩
  refine ⟨{ Name := "", Image := "img" }, by decide, rfl⟩

theorem BuildWithJob_invariants_witness :
    (BuildWithJob exIds emptyPolicyJob).Spec.Template.Spec.RestartPolicy = "Never"
    ∧ ∀ c ∈ (BuildWithJob exIds emptyPolicyJob).Spec.Template.Spec.Containers,
        c.Name ≠ "" := by
  have h := BuildWithJob_invariants exIds emptyPolicyJob {}
  exact ⟨h.2.1 rfl, h.1⟩

/-- C7: every JobExecutor.Exec call, whether the primary command succeeds or
fails, attempts the handshake write of the derived exit status (0 on success,
1 on failure) to /tmp/kubejob-status; a handshake failure is only logged and
changes neither Exec's returned output nor its returned error. -/
theorem Exec_always_attempts_handshake (e : JobExecutor)
    (primary handshake handshake2 : RemoteBehavior) (st st2 : ExecState) :
    (JobExecutor.Exec e primary handshake st).2.calls
        = [e.command ++ e.args,
           ["echo", if primary.streamErr.isSome then "1" else "0", ">",
            "/tmp/kubejob-status"]]
      ∧ (JobExecutor.Exec e primary handshake st).2.out
          = (JobExecutor.Exec e primary handshake2 st2).2.out
      ∧ (JobExecutor.Exec e primary handshake st).2.err
          = (JobExecutor.Exec e primary handshake2 st2).2.err
      ∧ (JobExecutor.Exec e primary handshake st).2.handshakeFailureLogged
          = handshake.streamErr.isSome
      ∧ (JobExecutor.Exec e primary handshake st).2.err
          = (if primary.streamErr.isSome then some { Pod := e.pod } else none) := by
  have h0 : toString (0 : Nat) = "0" := rfl
  have h1 : toString (1 : Nat) = "1" := rfl
  cases hp : primary.streamErr <;> cases hh : handshake.streamErr <;>
    simp [JobExecutor.Exec, JobExecutor.exec, streamExec, writeSink, hp, hh, h0, h1]

/-- C1: the bytes JobExecutor.Exec returns are NOT the command's captured
output — they are always empty, because exec points the stream's Stdout/Stderr
at the process-level os.Stdout/os.Stderr and the capture buffer is never
written (job.go:299-300, with the buffer commented out).  In the
cat-missingfile scenario the diagnostic ends up on the process stderr, the
returned output is empty (so it cannot contain "No such file or directory"),
and the returned error is the FailedJob. -/
theorem Exec_returns_empty_output :
    (∀ (e : JobExecutor) (primary handshake : RemoteBehavior) (st : ExecState),
        (JobExecutor.Exec e primary handshake st).2.out = "")
      ∧ (JobExecutor.Exec catExecutor catRemote {} {}).2.out = ""
      ∧ (JobExecutor.Exec catExecutor catRemote {} {}).1.osStderr
          = "cat: missingfile: No such file or directory\n"
      ∧ (JobExecutor.Exec catExecutor catRemote {} {}).2.err = some { Pod := catPod }
      ∧ (JobExecutor.Exec catExecutor catRemote {} {}).2.calls
          = [["cat", "missingfile"], ["echo", "1", ">", "/tmp/kubejob-status"]] := by
  refine ⟨?_, by decide, by decide, by decide, by decide⟩
  intro e primary handshake st
  cases hp : primary.streamErr <;>
    simp [JobExecutor.Exec, JobExecutor.exec, streamExec, writeSink, hp]

/-- C8: when RunWithExecutionHandler is used, every container command in the
submitted job spec is the sentinel-polling wrapper (sh -c jobCommandTemplate),
while each JobExecutor retains that container's original command and args; the
original command is not part of the spec sent to the orchestrator. -/
theorem setupExecutors_replaces_commands (dcl dco : Bool) (cs : List Container) :
    (∀ c ∈ (setupExecutors dcl dco cs).2,
        c.Command = ["sh"] ∧ c.Args = ["-c", jobCommandTemplate])
      ∧ (setupExecutors dcl dco cs).1.map JobExecutor.command = cs.map Container.Command
      ∧ (setupExecutors dcl dco cs).1.map JobExecutor.args = cs.map Container.Args
      ∧ (setupExecutors dcl dco cs).1.map JobExecutor.Container = cs
      ∧ (setupExecutors dcl dco cs).2.map Container.Name = cs.map Container.Name := by
  induction cs with
  | nil => simp [setupExecutors]
  | cons container rest ih =>
    refine ⟨?_, ?_, ?_, ?_, ?_⟩
    · intro c hc
      simp only [setupExecutors, List.mem_cons] at hc
      rcases hc with rfl | hc
      · exact ⟨rfl, rfl⟩
      · exact ih.1 c hc
    · simp [setupExecutors, ih.2.1]
    · simp [setupExecutors, ih.2.2.1]
    · simp [setupExecutors, ih.2.2.2.1]
    · simp [setupExecutors, ih.2.2.2.2]

theorem firedState_onceFired (cb : Option CallbackSpec) (st : WatchSt) :
    (firedState cb st).onceFired = true := rfl

theorem firedState_counts (cb : Option CallbackSpec) (st : WatchSt) :
    (firedState cb st).callbackCount = st.callbackCount + (if cb.isSome then 1 else 0)
      ∧ (firedState cb st).logStreamStarts = st.logStreamStarts + 1 :=
  ⟨rfl, rfl⟩

theorem watchGoroutine_counts_stable (cb : Option CallbackSpec) :
    ∀ (events : List Pod) (st : WatchSt), st.onceFired = true →
      (watchGoroutine cb events st).1.callbackCount = st.callbackCount
        ∧ (watchGoroutine cb events st).1.logStreamStarts = st.logStreamStarts := by
  intro events
  induction events with
  | nil => intro st _; exact ⟨rfl, rfl⟩
  | cons pod rest ih =>
    intro st h
    simp only [watchGoroutine]
    by_cases hcanc : st.canceled = true
    · simp [if_pos hcanc]
    · simp only [if_neg hcanc]
      by_cases hdup : pod.Status.Phase = st.phase
      · simp only [if_pos hdup]; exact ih st h
      · simp only [if_neg hdup]
        by_cases hrun : pod.Status.Phase = "Running"
        · simp only [if_pos hrun, if_pos h]
          exact ih _ h
        · simp only [if_neg hrun]
          by_cases hterm : pod.Status.Phase = "Succeeded" ∨ pod.Status.Phase = "Failed"
          · simp only [if_pos hterm]
            have hts : terminalState st = st := by simp [terminalState, h]
            by_cases hfail : pod.Status.Phase = "Failed"
            · simp [if_pos hfail, hts]
            · simp [if_neg hfail, hts]
          · simp only [if_neg hterm]
            exact ih _ h

theorem watchGoroutine_counts_le (cb : Option CallbackSpec) :
    ∀ (events : List Pod) (st : WatchSt),
      (watchGoroutine cb events st).1.callbackCount
          ≤ st.callbackCount + (if st.onceFired then 0 else 1)
        ∧ (watchGoroutine cb events st).1.logStreamStarts
          ≤ st.logStreamStarts + (if st.onceFired then 0 else 1) := by
  intro events
  induction events with
  | nil =>
    intro st
    exact ⟨Nat.le_add_right _ _, Nat.le_add_right _ _⟩
  | cons pod rest ih =>
    intro st
    simp only [watchGoroutine]
    by_cases hcanc : st.canceled = true
    · simp only [if_pos hcanc]
      exact ⟨Nat.le_add_right _ _, Nat.le_add_right _ _⟩
    · simp only [if_neg hcanc]
      by_cases hdup : pod.Status.Phase = st.phase
      · simp only [if_pos hdup]; exact ih st
      · simp only [if_neg hdup]
        by_cases hrun : pod.Status.Phase = "Running"
        · simp only [if_pos hrun]
          by_cases hfired : st.onceFired = true
          · simp only [if_pos hfired]
            have h2 := ih { st with phase := "Running" }
            simp only [hfired] at h2 ⊢
            simpa using h2
          · simp only [if_neg hfired]
            have hone : (if cb.isSome then 1 else 0) ≤ 1 := by
              cases cb <;> simp
            cases herr : callbackErrOf cb with
            | some msg =>
              refine ⟨?_, ?_⟩
              · show (firedState cb st).callbackCount ≤ st.callbackCount + 1
                rw [(firedState_counts cb st).1]
                omega
              · show (firedState cb st).logStreamStarts ≤ st.logStreamStarts + 1
                rw [(firedState_counts cb st).2]
            | none =>
              have h2 := watchGoroutine_counts_stable cb rest (firedState cb st) rfl
              refine ⟨?_, ?_⟩
              · show (watchGoroutine cb rest (firedState cb st)).1.callbackCount
                    ≤ st.callbackCount + 1
                rw [h2.1, (firedState_counts cb st).1]
                omega
              · show (watchGoroutine cb rest (firedState cb st)).1.logStreamStarts
                    ≤ st.logStreamStarts + 1
                rw [h2.2, (firedState_counts cb st).2]
        · simp only [if_neg hrun]
          by_cases hterm : pod.Status.Phase = "Succeeded" ∨ pod.Status.Phase = "Failed"
          · simp only [if_pos hterm]
            have hts : (terminalState st).callbackCount = st.callbackCount
                ∧ (terminalState st).logStreamStarts
                    ≤ st.logStreamStarts + (if st.onceFired then 0 else 1) := by
              by_cases hfired : st.onceFired = true <;> simp [terminalState, hfired]
            by_cases hfail : pod.Status.Phase = "Failed"
            · simp only [if_pos hfail]
              exact ⟨hts.1 ▸ Nat.le_add_right _ _, hts.2⟩
            · simp only [if_neg hfail]
              exact ⟨hts.1 ▸ Nat.le_add_right _ _, hts.2⟩
          · simp only [if_neg hterm]
            exact ih _

theorem watchGoroutine_fires (c : CallbackSpec) :
    ∀ (events : List Pod) (st : WatchSt),
      st.canceled = false → st.onceFired = false → st.phase ≠ "Running" →
      hasRunningBeforeTerminal events →
      (watchGoroutine (some c) events st).1.callbackCount = st.callbackCount + 1
        ∧ (watchGoroutine (some c) events st).1.logStreamStarts
            = st.logStreamStarts + 1 := by
  intro events
  induction events with
  | nil =>
    rintro st _ _ _ ⟨pre, p, post, habs, _, _⟩
    exact absurd habs (by simp)
  | cons pod rest ih =>
    rintro st hcanc hfired hphase ⟨pre, p, post, hsplit, hrunp, hpre⟩
    have hfired' : ¬ st.onceFired = true := by simp [hfired]
    have hcanc' : ¬ st.canceled = true := by simp [hcanc]
    simp only [watchGoroutine, if_neg hcanc']
    by_cases hdup : pod.Status.Phase = st.phase
    · simp only [if_pos hdup]
      cases pre with
      | nil =>
        simp only [List.nil_append, List.cons.injEq] at hsplit
        obtain ⟨rfl, rfl⟩ := hsplit
        exact absurd (hdup.symm.trans hrunp) hphase
      | cons q pre2 =>
        simp only [List.cons_append, List.cons.injEq] at hsplit
        obtain ⟨rfl, hrest⟩ := hsplit
        exact ih st hcanc hfired hphase
          ⟨pre2, p, post, hrest, hrunp, fun r hr => hpre r (List.mem_cons_of_mem _ hr)⟩
    · simp only [if_neg hdup]
      by_cases hrun : pod.Status.Phase = "Running"
      · simp only [if_pos hrun, if_neg hfired']
        cases herr : callbackErrOf (some c) with
        | some msg =>
          refine ⟨?_, ?_⟩
          · show (firedState (some c) st).callbackCount = st.callbackCount + 1
            rw [(firedState_counts (some c) st).1]
            simp
          · show (firedState (some c) st).logStreamStarts = st.logStreamStarts + 1
            exact (firedState_counts (some c) st).2
        | none =>
          have h2 := watchGoroutine_counts_stable (some c) rest
            (firedState (some c) st) rfl
          refine ⟨?_, ?_⟩
          · show (watchGoroutine (some c) rest (firedState (some c) st)).1.callbackCount
                = st.callbackCount + 1
            rw [h2.1, (firedState_counts (some c) st).1]
            simp
          · show (watchGoroutine (some c) rest (firedState (some c) st)).1.logStreamStarts
                = st.logStreamStarts + 1
            rw [h2.2]
            exact (firedState_counts (some c) st).2
      · by_cases hterm : pod.Status.Phase = "Succeeded" ∨ pod.Status.Phase = "Failed"
        · exfalso
          cases pre with
          | nil =>
            simp only [List.nil_append, List.cons.injEq] at hsplit
            obtain ⟨rfl, _⟩ := hsplit
            exact hrun hrunp
          | cons q pre2 =>
            simp only [List.cons_append, List.cons.injEq] at hsplit
            obtain ⟨rfl, _⟩ := hsplit
            rcases hpre pod (List.mem_cons_self _ _) with ⟨hs, hf⟩
            rcases hterm with h | h
            · exact hs h
            · exact hf h
        · simp only [if_neg hrun, if_neg hterm]
          cases pre with
          | nil =>
            simp only [List.nil_append, List.cons.injEq] at hsplit
            obtain ⟨rfl, _⟩ := hsplit
            exact absurd hrunp hrun
          | cons q pre2 =>
            simp only [List.cons_append, List.cons.injEq] at hsplit
            obtain ⟨rfl, hrest⟩ := hsplit
            exact ih { st with phase := pod.Status.Phase } hcanc hfired hrun
              ⟨pre2, p, post, hrest, hrunp,
                fun r hr => hpre r (List.mem_cons_of_mem _ hr)⟩

/-- C5: for every run in which a "Running" event arrives before any terminal
event, the pod-running callback fires exactly once and log streaming is started
exactly once, no matter how many duplicate "Running" events the watch stream
delivers; and for every run whatsoever they fire at most once. -/
theorem podRunningCallback_fires_once (c : CallbackSpec) (events : List Pod)
    (hrun : hasRunningBeforeTerminal events) :
    ((watchGoroutine (some c) events {}).1.callbackCount = 1
      ∧ (watchGoroutine (some c) events {}).1.logStreamStarts = 1)
    ∧ ∀ (cb : Option CallbackSpec) (evs : List Pod),
        (watchGoroutine cb evs {}).1.callbackCount ≤ 1
          ∧ (watchGoroutine cb evs {}).1.logStreamStarts ≤ 1 := by
  constructor
  · have h := watchGoroutine_fires c events {} rfl rfl (by decide) hrun
    simpa using h
  · intro cb evs
    have h := watchGoroutine_counts_le cb evs {}
    simpa using h

theorem podRunningCallback_fires_once_witness :
    (watchGoroutine (some {})
        [pendingPodW, runningPodW, runningPodW, pendingPodW, runningPodW,
         succeededPodW] {}).1.callbackCount = 1 := by
  have h := podRunningCallback_fires_once {}
    [pendingPodW, runningPodW, runningPodW, pendingPodW, runningPodW, succeededPodW]
    ⟨[pendingPodW], runningPodW,
      [runningPodW, pendingPodW, runningPodW, succeededPodW], rfl, rfl, by decide⟩
  exact h.1.1

/-- C3: when the handler cancels the run's context right after being invoked,
Job.Run does NOT return nil — the watch goroutine sees ctx.Err() at the next
event and returns a wrapped context error (job.go:538-540), which propagates
out of Run; cleanup does still delete the job and the pod. -/
theorem Run_cancellation_returns_error :
    (Job.Run cancelOps (some cancelingCallback) [runningPodC, succeededPodC]).err
        = some ("failed to wait: failed to watching: " ++
            "failed to wait in watchLoop: context error: context canceled")
      ∧ (Job.Run cancelOps (some cancelingCallback)
          [runningPodC, succeededPodC]).jobDeleteAttempted = true
      ∧ (Job.Run cancelOps (some cancelingCallback)
          [runningPodC, succeededPodC]).podDeletesAttempted = ["pod-c"] := by
  refine ⟨by decide, rfl, rfl⟩

/-- C4 counterexample: a run whose body fails (pod phase "Failed") and whose
cleanup job-delete also fails returns only the job-delete error — the primary
run error is overwritten, not aggregated: the result is identical to that of a
run whose body succeeded. -/
theorem Run_job_delete_overwrites_primary :
    (Job.Run overwriteOps none [failedPodF]).err = some "failed to delete job: boom"
      ∧ (Job.Run overwriteOps none []).err = some "failed to delete job: boom"
      ∧ (Job.Run overwriteOps none [failedPodF]).err
          = (Job.Run overwriteOps none []).err := by
  refine ⟨by decide, by decide, by decide⟩

theorem deletePodsLoop_clean (f : String → Option String) :
    ∀ (pods : List Pod) (e : Option String),
      (∀ pod ∈ pods, f pod.Name = none) → deletePodsLoop f pods e = e := by
  intro pods
  induction pods with
  | nil => intro e _; rfl
  | cons pod rest ih =>
    intro e h
    have hhead : f pod.Name = none := h pod (List.mem_cons_self _ _)
    simp only [deletePodsLoop, hhead]
    exact ih e (fun q hq => h q (List.mem_cons_of_mem _ hq))

theorem deletePodsLoop_extends (f : String → Option String) :
    ∀ (pods : List Pod) (E s : String),
      deletePodsLoop f pods (some E) = some s → ∃ t, s = E ++ t := by
  intro pods
  induction pods with
  | nil =>
    intro E s h
    simp only [deletePodsLoop, Option.some.injEq] at h
    exact ⟨"", by rw [← h, String.append_empty]⟩
  | cons pod rest ih =>
    intro E s h
    simp only [deletePodsLoop] at h
    cases hf : f pod.Name with
    | none =>
      rw [hf] at h
      exact ih E s h
    | some msg =>
      rw [hf] at h
      have h2 := ih (E ++ "\n" ++ ("failed to delete pod: " ++ msg)) s h
      rcases h2 with ⟨t, ht⟩
      refine ⟨("\n" ++ ("failed to delete pod: " ++ msg)) ++ t, ?_⟩
      rw [ht]
      simp [String.append_assoc]

/-- C4 (amended): after the job is created, cleanup always runs on every exit
path — the job delete is attempted and every listed pod's delete is attempted;
if every delete succeeds the body's error is returned unchanged; pod-delete
failures are aggregated below any prior error (the prior error stays as a
prefix of the result); but a JOB-delete failure overwrites the prior error —
the returned error is then independent of the body's error. -/
theorem runCleanup_aggregation (ops : ClusterOps) (e0 : Option String) :
    ((ops.deleteJobErr = none
        ∧ ∀ pod ∈ ops.podList.getD [], ops.deletePodErr pod.Name = none) →
      runCleanup ops e0 = e0)
    ∧ (∀ d, ops.deleteJobErr = some d → runCleanup ops e0 = runCleanup ops none)
    ∧ (ops.deleteJobErr = none →
        ∀ E s, e0 = some E → runCleanup ops e0 = some s → ∃ t, s = E ++ t)
    ∧ (∀ (cb : Option CallbackSpec) (events : List Pod), ops.createErr = none →
        (Job.Run ops cb events).jobDeleteAttempted = true
          ∧ (Job.Run ops cb events).podDeletesAttempted
              = (ops.podList.getD []).map Pod.Name) := by
  refine ⟨?_, ?_, ?_, ?_⟩
  · rintro ⟨hdel, hpods⟩
    simp only [runCleanup, hdel]
    cases hpl : ops.podList with
    | none => rfl
    | some pods =>
      simp only [hpl]
      by_cases hlen : pods.length = 0
      · simp [hlen]
      · simp only [if_neg hlen]
        apply deletePodsLoop_clean
        intro pod hpod
        exact hpods pod (by simp [hpl, hpod])
  · intro d hd
    simp [runCleanup, hd]
  · intro hdel E s hE h
    subst hE
    simp only [runCleanup, hdel] at h
    cases hpl : ops.podList with
    | none =>
      rw [hpl] at h
      simp only [Option.some.injEq] at h
      exact ⟨"", by rw [← h, String.append_empty]⟩
    | some pods =>
      simp only [hpl] at h
      by_cases hlen : pods.length = 0
      · rw [if_pos hlen] at h
        simp only [Option.some.injEq] at h
        exact ⟨"", by rw [← h, String.append_empty]⟩
      · rw [if_neg hlen] at h
        exact deletePodsLoop_extends ops.deletePodErr pods E s h
  · intro cb events hc
    simp [Job.Run, hc]

theorem runCleanup_aggregation_witness :
    runCleanup {} (some "primary failure") = some "primary failure" := by
  have h := runCleanup_aggregation {} (some "primary failure")
  exact h.1 ⟨rfl, by simp⟩

/-- C2: the reader loop emits one IsFinished=true event at the first io.EOF —
but because the loop body has no return/break after the EOF branch, the next
iteration's io.EOF emits a SECOND IsFinished=true event on the same container's
stream, violating the exactly-once claim. -/
theorem logStream_emits_second_finish :
    finishedCount (readLoopEvents true streamPod streamContainer eofStreamReads 1) = 1
      ∧ finishedCount
          (readLoopEvents true streamPod streamContainer eofStreamReads 2) = 2 := by
  exact ⟨by decide, by decide⟩

theorem setupExecutors_replaces_commands_witness :
    (∀ c ∈ (setupExecutors false false execContainersW).2, c.Command = ["sh"])
      ∧ (setupExecutors false false execContainersW).1.map JobExecutor.command
          = [["echo", "hi"], ["cat", "f"]] := by
  have h := setupExecutors_replaces_commands false false execContainersW
  exact ⟨fun c hc => (h.1 c hc).1, h.2.1.trans (by decide)⟩

end Kubejob
